import Mathlib

/-!
Verification of the zone-classification and output-formatting logic of
`run.py` (purple-archive-ocr): the program reads GIF frames, sends them to an
OCR service, buckets each recognized text fragment into a subtitle zone or a
player-name zone by a strict two-corner bounding-box test, and prints the
per-frame results as pretty-printed JSON.

The external services (cv2 frame decoding, the Vision API call) are modelled
as the list of per-frame fragment lists they deliver; everything downstream of
`response.responses` in `retrieve_text_from_gif`, the credential-path
resolution in `__main__`, and the JSON formatting of `result_dict` are
embedded faithfully below.
-/

set_option maxHeartbeats 1000000
set_option maxRecDepth 100000

namespace PurpleArchiveOcr

/-- One vertex of a bounding polygon, as returned by the OCR service
(`text.bounding_poly.vertices` elements, integer pixel coordinates). -/
structure Vertex where
  x : Int
  y : Int
deriving DecidableEq

/-- One recognized text unit: `text.description` and the vertex list of
`text.bounding_poly`. -/
structure TextFragment where
  description : String
  vertices : List Vertex
deriving DecidableEq

/-- Subtitle zone: `AREA_BOUND_SUBT = ((95, 143), (673, 393))` in run.py. -/
def AREA_BOUND_SUBT : (Int × Int) × (Int × Int) := ((95, 143), (673, 393))

/-- Player-name zone: `AREA_BOUND_PLAYER = ((21, 461), (627, 496))` in run.py. -/
def AREA_BOUND_PLAYER : (Int × Int) × (Int × Int) := ((21, 461), (627, 496))

/-- The strict two-corner containment test of run.py lines 70-73 / 75-78:
`vertices[0].x > bound[0][0] and vertices[0].y > bound[0][1] and
vertices[1].x < bound[1][0] and vertices[1].y < bound[1][1]`,
applied to two given vertices. -/
def in_area_v (bound : (Int × Int) × (Int × Int)) (v0 v1 : Vertex) : Bool :=
  decide (v0.x > bound.1.1) && decide (v0.y > bound.1.2) &&
  decide (v1.x < bound.2.1) && decide (v1.y < bound.2.2)

/-- The containment test applied to a vertex list, reading `vertices[0]` and
`vertices[1]` (run.py only evaluates it after checking `len(vertices) == 4`,
so the default value is never used there). -/
def in_area (bound : (Int × Int) × (Int × Int)) (vertices : List Vertex) : Bool :=
  in_area_v bound (vertices.getD 0 ⟨0, 0⟩) (vertices.getD 1 ⟨0, 1⟩)

/-- The zone assignment of run.py lines 70-79 applied to the accumulator
`(subt_str, player_str)`: subtitle test first (`subt_str += text.description`),
else player test (`player_str = text.description`), else unchanged. -/
def zone_assign (acc : String × String) (descr : String) (v0 v1 : Vertex) :
    String × String :=
  if in_area_v AREA_BOUND_SUBT v0 v1 then (acc.1 ++ descr, acc.2)
  else if in_area_v AREA_BOUND_PLAYER v0 v1 then (acc.1, descr)
  else acc

/-- The body of the fragment loop of run.py lines 65-79: skip fragments whose
polygon does not have exactly 4 vertices (`continue`), otherwise classify by
`vertices[0]` and `vertices[1]`. -/
def classify_fragment (acc : String × String) (text : TextFragment) :
    String × String :=
  let vertices := text.vertices
  if vertices.length ≠ 4 then acc
  else zone_assign acc text.description (vertices.getD 0 ⟨0, 0⟩) (vertices.getD 1 ⟨0, 1⟩)

/-- One frame of run.py lines 63-81: fold the fragment loop over the list
`air.text_annotations`, starting from `subt_str = ""` and `player_str = ""`,
yielding the pair appended to `result`. -/
def frame_result (texts : List TextFragment) : String × String :=
  texts.foldl classify_fragment ("", "")

/-- The result loop of run.py lines 61-83: one `(subt_str, player_str)` pair
appended per response, in response order. -/
def retrieve_text (responses : List (List TextFragment)) :
    List (String × String) :=
  responses.foldl (fun result air => result ++ [frame_result air]) []

/-- Error-aware variant of the fragment-loop body: vertex accesses
`vertices[0]` and `vertices[1]` return `none` when out of bounds, exactly
where Python would raise `IndexError`; the length check happens first, as in
run.py lines 67-68. -/
def classify_fragment_checked (acc : String × String) (text : TextFragment) :
    Option (String × String) :=
  let vertices := text.vertices
  if vertices.length ≠ 4 then some acc
  else
    match vertices[0]?, vertices[1]? with
    | some v0, some v1 => some (zone_assign acc text.description v0 v1)
    | _, _ => none

/-- Error-aware variant of `frame_result`: propagates a vertex-access error. -/
def frame_result_checked (texts : List TextFragment) :
    Option (String × String) :=
  texts.foldlM classify_fragment_checked ("", "")

/-- Concatenation of a list of strings, in order (the spec: the subtitle field
accumulates text of all matching fragments, in emission order). -/
def concat_texts : List String → String
  | [] => ""
  | s :: rest => s ++ concat_texts rest

/-- Last element of a list of strings, or the default when empty (the spec:
the player field is overwritten by each match, so only the last survives). -/
def last_or (d : String) : List String → String
  | [] => d
  | s :: rest => last_or s rest

/-- A fragment is classified into the subtitle zone when it survives the
4-vertex check and passes the subtitle containment test. -/
def subtitle_match (t : TextFragment) : Bool :=
  t.vertices.length == 4 && in_area AREA_BOUND_SUBT t.vertices

/-- A fragment is classified into the player zone when it survives the
4-vertex check, fails the subtitle test (tested first), and passes the player
containment test. -/
def player_match (t : TextFragment) : Bool :=
  t.vertices.length == 4 && !in_area AREA_BOUND_SUBT t.vertices &&
    in_area AREA_BOUND_PLAYER t.vertices

/-! JSON output formatting, mirroring
`json.dumps(result_dict, indent=4, ensure_ascii=False)` on
`result_dict = {"result": [{"subtitle": ..., "playerName": ...}, ...]}`
(run.py lines 113-121). With `ensure_ascii=False`, Python escapes only the
backslash, the double quote, and the control characters below 0x20 — the five
short escapes for backspace, tab, newline, form feed and carriage return, and
a lowercase four-digit hexadecimal escape for the rest; all other characters,
non-ASCII included, are emitted literally. -/

/-- Lowercase hexadecimal digit for a value below 16. -/
def hex_digit (n : Nat) : Char :=
  if n < 10 then Char.ofNat (48 + n) else Char.ofNat (87 + n)

/-- Python JSON escaping of one character (ensure_ascii=False). -/
def escape_char (c : Char) : List Char :=
  if c = '\\' then ['\\', '\\']
  else if c = '"' then ['\\', '"']
  else if c = '\x08' then ['\\', 'b']
  else if c = '\t' then ['\\', 't']
  else if c = '\n' then ['\\', 'n']
  else if c = '\x0c' then ['\\', 'f']
  else if c = '\r' then ['\\', 'r']
  else if c.toNat < 32 then
    ['\\', 'u', '0', '0', hex_digit (c.toNat / 16), hex_digit (c.toNat % 16)]
  else [c]

/-- JSON escaping of a character list. -/
def escape_chars (l : List Char) : List Char := l.flatMap escape_char

/-- Scaffolding before the subtitle value of one item, at indent 4 depth 2:
eight leading spaces for the object brace, twelve for its keys. -/
def item_head : List Char := "        \x7b\n            \"subtitle\": \"".data

/-- Scaffolding between the subtitle value (after its closing quote) and the
playerName value. -/
def item_mid_t : List Char := ",\n            \"playerName\": \"".data

/-- Scaffolding after the playerName value (after its closing quote). -/
def item_tail_t : List Char := "\n        \x7d".data

/-- Output prefix up to the value of the "result" key. -/
def head_chars : List Char := "\x7b\n    \"result\": ".data

/-- Closing of a non-empty "result" array. -/
def arr_close : List Char := "\n    ]".data

/-- Closing of the top-level object. -/
def obj_close : List Char := "\n\x7d".data

/-- One serialized FrameResult object of the "result" array. -/
def serialize_item_chars (r : String × String) : List Char :=
  item_head ++ escape_chars r.1.data ++ ('"' :: item_mid_t) ++
    escape_chars r.2.data ++ ('"' :: item_tail_t)

/-- The serialized items of a non-empty "result" array, separated by a comma
and a newline (the indent of the next item is part of `item_head`). -/
def serialize_items_chars : List (String × String) → List Char
  | [] => []
  | [r] => serialize_item_chars r
  | r :: rs => serialize_item_chars r ++ (',' :: '\n' :: serialize_items_chars rs)

/-- The full serialized output of run.py line 121, as a character list: the
empty array is rendered inline as `[]`, a non-empty one across lines. -/
def result_json_chars : List (String × String) → List Char
  | [] => head_chars ++ ['[', ']'] ++ obj_close
  | r :: rs =>
    head_chars ++ ('[' :: '\n' :: serialize_items_chars (r :: rs)) ++ arr_close ++
      obj_close

/-- The full serialized output of run.py line 121 as a string. -/
def result_json (rs : List (String × String)) : String :=
  String.mk (result_json_chars rs)

/-! A parser for the serialized output, used to state the round-trip
property: parsing the program output recovers every subtitle and playerName
string exactly. -/

/-- Consume an expected literal prefix, returning the remainder. -/
def expects : List Char → List Char → Option (List Char)
  | [], s => some s
  | _ :: _, [] => none
  | p :: ps, c :: cs => if c = p then expects ps cs else none

/-- Value of one hexadecimal digit (JSON allows both cases). -/
def hex_val (c : Char) : Option Nat :=
  if 48 ≤ c.toNat ∧ c.toNat ≤ 57 then some (c.toNat - 48)
  else if 97 ≤ c.toNat ∧ c.toNat ≤ 102 then some (c.toNat - 87)
  else if 65 ≤ c.toNat ∧ c.toNat ≤ 70 then some (c.toNat - 55)
  else none

/-- Parse a JSON string body up to and including the closing quote,
decoding the escape sequences; returns the decoded characters and the
remainder of the input. -/
def parse_string_body : List Char → Option (List Char × List Char)
  | [] => none
  | c :: cs =>
    if c = '"' then some ([], cs)
    else if c = '\\' then
      match cs with
      | [] => none
      | e :: cs2 =>
        if e = '"' then (parse_string_body cs2).map (fun pr => ('"' :: pr.1, pr.2))
        else if e = '\\' then (parse_string_body cs2).map (fun pr => ('\\' :: pr.1, pr.2))
        else if e = '/' then (parse_string_body cs2).map (fun pr => ('/' :: pr.1, pr.2))
        else if e = 'b' then (parse_string_body cs2).map (fun pr => ('\x08' :: pr.1, pr.2))
        else if e = 't' then (parse_string_body cs2).map (fun pr => ('\t' :: pr.1, pr.2))
        else if e = 'n' then (parse_string_body cs2).map (fun pr => ('\n' :: pr.1, pr.2))
        else if e = 'f' then (parse_string_body cs2).map (fun pr => ('\x0c' :: pr.1, pr.2))
        else if e = 'r' then (parse_string_body cs2).map (fun pr => ('\r' :: pr.1, pr.2))
        else if e = 'u' then
          match cs2 with
          | h1 :: h2 :: h3 :: h4 :: cs3 =>
            match hex_val h1, hex_val h2, hex_val h3, hex_val h4 with
            | some a, some b, some c2, some d =>
              (parse_string_body cs3).map
                (fun pr => (Char.ofNat (4096 * a + 256 * b + 16 * c2 + d) :: pr.1, pr.2))
            | _, _, _, _ => none
          | _ => none
        else none
    else (parse_string_body cs).map (fun pr => (c :: pr.1, pr.2))

/-- Parse one serialized FrameResult object. -/
def parse_item (cs : List Char) : Option ((String × String) × List Char) :=
  (expects item_head cs).bind fun cs1 =>
  (parse_string_body cs1).bind fun sc =>
  (expects item_mid_t sc.2).bind fun cs2 =>
  (parse_string_body cs2).bind fun pc =>
  (expects item_tail_t pc.2).bind fun cs3 =>
  some ((String.mk sc.1, String.mk pc.1), cs3)

/-- Parse one or more serialized items separated by a comma and newline; the
fuel bounds the number of items and only ever needs the input length. -/
def parse_items : Nat → List Char → Option (List (String × String) × List Char)
  | 0, _ => none
  | fuel + 1, cs =>
    (parse_item cs).bind fun rc =>
      match expects [',', '\n'] rc.2 with
      | some cs2 => (parse_items fuel cs2).map fun lc => (rc.1 :: lc.1, lc.2)
      | none => some ([rc.1], rc.2)

/-- Parse the full serialized output back into the list of
(subtitle, playerName) pairs. -/
def parse_output (out : String) : Option (List (String × String)) :=
  (expects head_chars out.data).bind fun cs1 =>
    match expects ['[', ']'] cs1 with
    | some cs2 => if cs2 = obj_close then some [] else none
    | none =>
      (expects ['[', '\n'] cs1).bind fun cs2 =>
      (parse_items cs2.length cs2).bind fun lc =>
      (expects arr_close lc.2).bind fun cs3 =>
      if cs3 = obj_close then some lc.1 else none

/-- The message printed by run.py lines 101-102 when no credential file is
found. -/
def usage_message : String :=
  "Make sure to put GCP credential JSON file in the 'cred' directory."

/-- The credential-path resolution of run.py lines 98-104: an explicit `-c`
argument is used as is; otherwise the first JSON file globbed from the local
`cred` directory; when that glob is empty the program prints a usage message
and exits with code 1 — the only explicit exit code in the program. -/
def resolve_cred (cred_arg : Option String) (glob_cred : List String) :
    Except (Nat × String) String :=
  match cred_arg with
  | some p => Except.ok p
  | none =>
    match glob_cred with
    | [] => Except.error (1, usage_message)
    | p :: _ => Except.ok p

/-! Helper lemmas about the classifier. -/

theorem classify_fragment_skip (acc : String × String) (t : TextFragment)
    (h : t.vertices.length ≠ 4) : classify_fragment acc t = acc := by
  simp [classify_fragment, h]

theorem classify_fragment_subt (acc : String × String) (t : TextFragment)
    (h4 : t.vertices.length = 4) (hs : in_area AREA_BOUND_SUBT t.vertices = true) :
    classify_fragment acc t = (acc.1 ++ t.description, acc.2) := by
  simp only [classify_fragment, h4, ne_eq, not_true_eq_false, if_false]
  simp only [in_area, List.getD_eq_getElem?_getD] at hs
  simp [zone_assign, hs]

theorem classify_fragment_player (acc : String × String) (t : TextFragment)
    (h4 : t.vertices.length = 4) (hs : in_area AREA_BOUND_SUBT t.vertices = false)
    (hp : in_area AREA_BOUND_PLAYER t.vertices = true) :
    classify_fragment acc t = (acc.1, t.description) := by
  simp only [classify_fragment, h4, ne_eq, not_true_eq_false, if_false]
  simp only [in_area, List.getD_eq_getElem?_getD] at hs hp
  simp [zone_assign, hs, hp]

theorem classify_fragment_no_match (acc : String × String) (t : TextFragment)
    (hs : in_area AREA_BOUND_SUBT t.vertices = false)
    (hp : in_area AREA_BOUND_PLAYER t.vertices = false) :
    classify_fragment acc t = acc := by
  simp only [in_area, List.getD_eq_getElem?_getD] at hs hp
  simp [classify_fragment, zone_assign, hs, hp]

theorem foldl_classify_fst (texts : List TextFragment) : ∀ s p : String,
    (texts.foldl classify_fragment (s, p)).1 =
      s ++ concat_texts ((texts.filter subtitle_match).map TextFragment.description) := by
  induction texts with
  | nil => intro s p; simp [concat_texts]
  | cons t ts ih =>
    intro s p
    by_cases h4 : t.vertices.length = 4
    · by_cases hs : in_area AREA_BOUND_SUBT t.vertices = true
      · have hm : subtitle_match t = true := by simp [subtitle_match, h4, hs]
        rw [List.foldl_cons, classify_fragment_subt (s, p) t h4 hs,
          List.filter_cons_of_pos hm, List.map_cons]
        show _ = s ++ concat_texts (t.description :: _)
        rw [concat_texts, ih, String.append_assoc]
      · have hs' : in_area AREA_BOUND_SUBT t.vertices = false := by
          simpa using hs
        have hm : subtitle_match t = false := by simp [subtitle_match, hs']
        rw [List.foldl_cons, List.filter_cons_of_neg (by simp [hm])]
        by_cases hp : in_area AREA_BOUND_PLAYER t.vertices = true
        · rw [classify_fragment_player (s, p) t h4 hs' hp]; exact ih s t.description
        · rw [classify_fragment_no_match (s, p) t hs' (by simpa using hp)]
          exact ih s p
    · have hm : subtitle_match t = false := by simp [subtitle_match, h4]
      rw [List.foldl_cons, classify_fragment_skip (s, p) t h4,
        List.filter_cons_of_neg (by simp [hm])]
      exact ih s p

theorem foldl_classify_snd (texts : List TextFragment) : ∀ s p : String,
    (texts.foldl classify_fragment (s, p)).2 =
      last_or p ((texts.filter player_match).map TextFragment.description) := by
  induction texts with
  | nil => intro s p; simp [last_or]
  | cons t ts ih =>
    intro s p
    by_cases h4 : t.vertices.length = 4
    · by_cases hs : in_area AREA_BOUND_SUBT t.vertices = true
      · have hm : player_match t = false := by simp [player_match, hs]
        rw [List.foldl_cons, classify_fragment_subt (s, p) t h4 hs,
          List.filter_cons_of_neg (by simp [hm])]
        exact ih (s ++ t.description) p
      · have hs' : in_area AREA_BOUND_SUBT t.vertices = false := by
          simpa using hs
        by_cases hp : in_area AREA_BOUND_PLAYER t.vertices = true
        · have hm : player_match t = true := by
            simp [player_match, h4, hs', hp]
          rw [List.foldl_cons, classify_fragment_player (s, p) t h4 hs' hp,
            List.filter_cons_of_pos hm, List.map_cons]
          show _ = last_or p (t.description :: _)
          rw [last_or]
          exact ih s t.description
        · have hm : player_match t = false := by simp [player_match, hp]
          rw [List.foldl_cons, classify_fragment_no_match (s, p) t hs' (by simpa using hp),
            List.filter_cons_of_neg (by simp [hm])]
          exact ih s p
    · have hm : player_match t = false := by simp [player_match, h4]
      rw [List.foldl_cons, classify_fragment_skip (s, p) t h4,
        List.filter_cons_of_neg (by simp [hm])]
      exact ih s p

theorem retrieve_text_eq_map (responses : List (List TextFragment)) :
    retrieve_text responses = responses.map frame_result := by
  have key : ∀ (rs : List (List TextFragment)) (init : List (String × String)),
      rs.foldl (fun result air => result ++ [frame_result air]) init =
        init ++ rs.map frame_result := by
    intro rs
    induction rs with
    | nil => intro init; simp
    | cons r rs ih => intro init; simp [ih]
  simpa using key responses []

theorem foldlM_checked (texts : List TextFragment) : ∀ acc : String × String,
    texts.foldlM classify_fragment_checked acc =
      some (texts.foldl classify_fragment acc) := by
  induction texts with
  | nil => intro acc; rfl
  | cons t ts ih =>
    intro acc
    rw [List.foldlM_cons, List.foldl_cons]
    by_cases h4 : t.vertices.length = 4
    · have h0 : t.vertices[0]? = some (t.vertices.getD 0 ⟨0, 0⟩) := by
        have hlt : 0 < t.vertices.length := by omega
        simp [List.getD, List.getElem?_eq_getElem hlt]
      have h1 : t.vertices[1]? = some (t.vertices.getD 1 ⟨0, 1⟩) := by
        have hlt : 1 < t.vertices.length := by omega
        simp [List.getD, List.getElem?_eq_getElem hlt]
      have hc : classify_fragment_checked acc t =
          some (classify_fragment acc t) := by
        simp only [classify_fragment_checked, classify_fragment, h4, ne_eq,
          not_true_eq_false, if_false, h0, h1]
      rw [hc]
      simpa using ih (classify_fragment acc t)
    · have hc : classify_fragment_checked acc t = some acc := by
        simp [classify_fragment_checked, h4]
      rw [hc, classify_fragment_skip acc t h4]
      simpa using ih acc

/-! Helper lemmas for the JSON round trip. -/

theorem expects_append (pre rest : List Char) : expects pre (pre ++ rest) = some rest := by
  induction pre with
  | nil => rfl
  | cons p ps ih => simp [expects, ih]

theorem char_toNat_inj {c d : Char} (h : c.toNat = d.toNat) : c = d := by
  rcases c with ⟨⟨cv⟩, hc⟩
  rcases d with ⟨⟨dv⟩, hd⟩
  simp only [Char.toNat, UInt32.toNat] at h
  congr 2
  exact BitVec.eq_of_toNat_eq h

theorem char_ofNat_toNat_small {c : Char} (h : c.toNat < 32) :
    Char.ofNat c.toNat = c := by
  apply char_toNat_inj
  revert h
  generalize c.toNat = n
  intro h
  interval_cases n <;> decide

theorem hex_val_hex_digit (n : Nat) (h : n < 16) : hex_val (hex_digit n) = some n := by
  interval_cases n <;> decide

theorem psb_quote (cs : List Char) : parse_string_body ('"' :: cs) = some ([], cs) := by
  rw [parse_string_body.eq_def]
  simp

theorem psb_esc_quote (cs : List Char) : parse_string_body ('\\' :: '"' :: cs) =
    (parse_string_body cs).map (fun pr => ('"' :: pr.1, pr.2)) := by
  rw [parse_string_body.eq_def]
  simp

theorem psb_esc_back (cs : List Char) : parse_string_body ('\\' :: '\\' :: cs) =
    (parse_string_body cs).map (fun pr => ('\\' :: pr.1, pr.2)) := by
  rw [parse_string_body.eq_def]
  simp

theorem psb_esc_b (cs : List Char) : parse_string_body ('\\' :: 'b' :: cs) =
    (parse_string_body cs).map (fun pr => ('\x08' :: pr.1, pr.2)) := by
  rw [parse_string_body.eq_def]
  simp

theorem psb_esc_t (cs : List Char) : parse_string_body ('\\' :: 't' :: cs) =
    (parse_string_body cs).map (fun pr => ('\t' :: pr.1, pr.2)) := by
  rw [parse_string_body.eq_def]
  simp

theorem psb_esc_n (cs : List Char) : parse_string_body ('\\' :: 'n' :: cs) =
    (parse_string_body cs).map (fun pr => ('\n' :: pr.1, pr.2)) := by
  rw [parse_string_body.eq_def]
  simp

theorem psb_esc_f (cs : List Char) : parse_string_body ('\\' :: 'f' :: cs) =
    (parse_string_body cs).map (fun pr => ('\x0c' :: pr.1, pr.2)) := by
  rw [parse_string_body.eq_def]
  simp

theorem psb_esc_r (cs : List Char) : parse_string_body ('\\' :: 'r' :: cs) =
    (parse_string_body cs).map (fun pr => ('\r' :: pr.1, pr.2)) := by
  rw [parse_string_body.eq_def]
  simp

theorem psb_esc_u (h1 h2 h3 h4 : Char) (a b c2 d : Nat) (cs : List Char)
    (hv1 : hex_val h1 = some a) (hv2 : hex_val h2 = some b)
    (hv3 : hex_val h3 = some c2) (hv4 : hex_val h4 = some d) :
    parse_string_body ('\\' :: 'u' :: h1 :: h2 :: h3 :: h4 :: cs) =
      (parse_string_body cs).map
        (fun pr => (Char.ofNat (4096 * a + 256 * b + 16 * c2 + d) :: pr.1, pr.2)) := by
  rw [parse_string_body.eq_def]
  simp [hv1, hv2, hv3, hv4]

theorem psb_other (c : Char) (cs : List Char) (h1 : c ≠ '"') (h2 : c ≠ '\\') :
    parse_string_body (c :: cs) =
      (parse_string_body cs).map (fun pr => (c :: pr.1, pr.2)) := by
  rw [parse_string_body.eq_def]
  simp [h1, h2]

theorem parse_escape (s : List Char) : ∀ rest : List Char,
    parse_string_body (escape_chars s ++ '"' :: rest) = some (s, rest) := by
  induction s with
  | nil => intro rest; simp [escape_chars, psb_quote]
  | cons c s ih =>
    intro rest
    have hstep : escape_chars (c :: s) ++ '"' :: rest =
        escape_char c ++ (escape_chars s ++ '"' :: rest) := by
      simp [escape_chars]
    rw [hstep]
    rcases eq_or_ne c '\\' with h1 | h1
    · subst h1; simp [escape_char, psb_esc_back, ih]
    rcases eq_or_ne c '"' with h2 | h2
    · subst h2; simp [escape_char, psb_esc_quote, ih]
    rcases eq_or_ne c '\x08' with h3 | h3
    · subst h3; simp [escape_char, psb_esc_b, ih]
    rcases eq_or_ne c '\t' with h4 | h4
    · subst h4; simp [escape_char, psb_esc_t, ih]
    rcases eq_or_ne c '\n' with h5 | h5
    · subst h5; simp [escape_char, psb_esc_n, ih]
    rcases eq_or_ne c '\x0c' with h6 | h6
    · subst h6; simp [escape_char, psb_esc_f, ih]
    rcases eq_or_ne c '\r' with h7 | h7
    · subst h7; simp [escape_char, psb_esc_r, ih]
    by_cases h8 : c.toNat < 32
    · have hesc : escape_char c =
          ['\\', 'u', '0', '0', hex_digit (c.toNat / 16), hex_digit (c.toNat % 16)] := by
        simp [escape_char, h1, h2, h3, h4, h5, h6, h7, h8]
      have hv0 : hex_val '0' = some 0 := by decide
      have hv1 : hex_val (hex_digit (c.toNat / 16)) = some (c.toNat / 16) :=
        hex_val_hex_digit _ (by omega)
      have hv2 : hex_val (hex_digit (c.toNat % 16)) = some (c.toNat % 16) :=
        hex_val_hex_digit _ (by omega)
      have hchar : Char.ofNat (4096 * 0 + 256 * 0 + 16 * (c.toNat / 16) + c.toNat % 16) = c := by
        have harith : 4096 * 0 + 256 * 0 + 16 * (c.toNat / 16) + c.toNat % 16 = c.toNat := by
          omega
        rw [harith]
        exact char_ofNat_toNat_small h8
      rw [hesc]
      simp only [List.cons_append, List.nil_append]
      rw [psb_esc_u _ _ _ _ _ _ _ _ _ hv0 hv0 hv1 hv2, ih, hchar]
      rfl
    · have hesc : escape_char c = [c] := by
        simp [escape_char, h1, h2, h3, h4, h5, h6, h7, h8]
      rw [hesc]
      simp only [List.cons_append, List.nil_append]
      rw [psb_other c _ h2 h1, ih]
      rfl

theorem parse_item_round (r : String × String) (rest : List Char) :
    parse_item (serialize_item_chars r ++ rest) = some (r, rest) := by
  rcases r with ⟨⟨sd⟩, ⟨pd⟩⟩
  simp only [serialize_item_chars, List.append_assoc, List.cons_append]
  simp [parse_item, expects_append, parse_escape]

theorem serialize_items_len (rs : List (String × String)) :
    rs.length ≤ (serialize_items_chars rs).length := by
  have hitem : ∀ r : String × String, 1 ≤ (serialize_item_chars r).length := by
    intro r
    have hh : 1 ≤ item_head.length := by decide
    simp only [serialize_item_chars, List.length_append]
    omega
  induction rs with
  | nil => simp [serialize_items_chars]
  | cons r rs ih =>
    cases rs with
    | nil => simpa [serialize_items_chars] using hitem r
    | cons r2 rs2 =>
      have h1 := hitem r
      simp only [serialize_items_chars, List.length_append, List.length_cons] at *
      omega

theorem parse_items_round (rs : List (String × String)) :
    ∀ fuel : Nat, rs ≠ [] → rs.length ≤ fuel → ∀ rest : List Char,
      parse_items fuel (serialize_items_chars rs ++ '\n' :: rest) =
        some (rs, '\n' :: rest) := by
  induction rs with
  | nil => intro fuel h; exact absurd rfl h
  | cons r rs ih =>
    intro fuel _ hfuel rest
    cases fuel with
    | zero => simp at hfuel
    | succ f =>
      cases rs with
      | nil =>
        simp only [serialize_items_chars]
        rw [parse_items, parse_item_round r ('\n' :: rest)]
        simp [expects]
      | cons r2 rs2 =>
        simp only [serialize_items_chars, List.append_assoc, List.cons_append]
        rw [parse_items, parse_item_round r
          (',' :: '\n' :: (serialize_items_chars (r2 :: rs2) ++ '\n' :: rest))]
        have hsep : expects [',', '\n']
            (',' :: '\n' :: (serialize_items_chars (r2 :: rs2) ++ '\n' :: rest)) =
            some (serialize_items_chars (r2 :: rs2) ++ '\n' :: rest) := by
          simp [expects]
        have hrec := ih f (by simp) (by simp at hfuel ⊢; omega) rest
        simp [hsep, hrec]

theorem parse_output_round (rs : List (String × String)) :
    parse_output (result_json rs) = some rs := by
  cases rs with
  | nil => decide
  | cons r rs' =>
    have hlen : (r :: rs').length ≤
        (serialize_items_chars (r :: rs') ++ '\n' :: ("    ]".data ++ obj_close)).length := by
      have h1 := serialize_items_len (r :: rs')
      simp only [List.length_append]
      omega
    have hrj : result_json_chars (r :: rs') =
        head_chars ++ ('[' :: '\n' ::
          (serialize_items_chars (r :: rs') ++ '\n' :: ("    ]".data ++ obj_close))) := by
      show head_chars ++ ('[' :: '\n' :: serialize_items_chars (r :: rs')) ++ arr_close ++
          obj_close = _
      rw [List.append_assoc, List.append_assoc]
      rfl
    have hbr : expects ['[', ']']
        ('[' :: '\n' :: (serialize_items_chars (r :: rs') ++ '\n' :: ("    ]".data ++ obj_close))) =
        none := by
      simp [expects]
    have hbr2 : expects ['[', '\n']
        ('[' :: '\n' :: (serialize_items_chars (r :: rs') ++ '\n' :: ("    ]".data ++ obj_close))) =
        some (serialize_items_chars (r :: rs') ++ '\n' :: ("    ]".data ++ obj_close)) := by
      simp [expects]
    have hitems := parse_items_round (r :: rs')
      (serialize_items_chars (r :: rs') ++ '\n' :: ("    ]".data ++ obj_close)).length
      (by simp) hlen ("    ]".data ++ obj_close)
    have hclose : expects arr_close ('\n' :: ("    ]".data ++ obj_close)) =
        some obj_close :=
      expects_append arr_close obj_close
    unfold parse_output result_json
    show (expects head_chars (result_json_chars (r :: rs'))).bind _ = some (r :: rs')
    rw [hrj, expects_append]
    simp only [Option.some_bind, hbr, hbr2, hitems, hclose, if_true]

/-! Claim theorems. -/

/-- C1: for every 4-vertex polygon and every zone rectangle, the containment
test of run.py lines 70-73 holds iff vertex 0 is strictly beyond the top-left
corner and vertex 1 strictly before the bottom-right corner; a corner exactly
on the boundary is excluded, and vertices 2 and 3 never affect the result. -/
theorem c1_zone_containment_strict
    (bound : (Int × Int) × (Int × Int)) (v0 v1 v2 v3 : Vertex) :
    (in_area bound [v0, v1, v2, v3] = true ↔
      (bound.1.1 < v0.x ∧ bound.1.2 < v0.y ∧ v1.x < bound.2.1 ∧ v1.y < bound.2.2)) ∧
    (v0.x = bound.1.1 → in_area bound [v0, v1, v2, v3] = false) ∧
    (∀ w2 w3 : Vertex, in_area bound [v0, v1, w2, w3] = in_area bound [v0, v1, v2, v3]) := by
  refine ⟨?_, ?_, ?_⟩
  · simp [in_area, in_area_v, List.getD, and_assoc]
  · intro h
    simp [in_area, in_area_v, List.getD, h]
  · intro w2 w3
    rfl

/-- Witness for C1 at a concrete zone and polygon: a fragment strictly inside
is accepted, and a fragment whose vertex 0 sits exactly on the top-left corner
is rejected. -/
theorem c1_zone_containment_strict_witness :
    in_area ((0, 0), (10, 10)) [⟨1, 1⟩, ⟨9, 9⟩, ⟨7, 7⟩, ⟨2, 2⟩] = true ∧
    in_area ((0, 0), (10, 10)) [⟨0, 1⟩, ⟨9, 9⟩, ⟨7, 7⟩, ⟨2, 2⟩] = false :=
  ⟨(c1_zone_containment_strict ((0, 0), (10, 10)) ⟨1, 1⟩ ⟨9, 9⟩ ⟨7, 7⟩ ⟨2, 2⟩).1.mpr
      (by decide),
    (c1_zone_containment_strict ((0, 0), (10, 10)) ⟨0, 1⟩ ⟨9, 9⟩ ⟨7, 7⟩ ⟨2, 2⟩).2.1
      (by decide)⟩

/-- C2: the subtitle field of a frame is the concatenation, in list order, of
the text of all fragments classified into the subtitle zone; in particular it
is empty when no fragment matches. -/
theorem c2_subtitle_concatenation (texts : List TextFragment) :
    (frame_result texts).1 =
      concat_texts ((texts.filter subtitle_match).map TextFragment.description) ∧
    ((∀ t ∈ texts, subtitle_match t = false) → (frame_result texts).1 = "") := by
  have hmain : (frame_result texts).1 =
      concat_texts ((texts.filter subtitle_match).map TextFragment.description) := by
    rw [frame_result, foldl_classify_fst]
    exact (String.empty_append _).symm ▸ rfl
  refine ⟨hmain, fun hnone => ?_⟩
  rw [hmain, List.filter_eq_nil_iff.mpr (by intro t ht; simp [hnone t ht])]
  rfl

/-- Witness for C2: a frame with one subtitle-zone fragment and one fragment
outside both zones yields that fragment's text; a frame with only the outside
fragment yields the empty string. -/
theorem c2_subtitle_concatenation_witness :
    (frame_result [⟨"out", [⟨0, 0⟩, ⟨1, 1⟩, ⟨1, 1⟩, ⟨0, 0⟩]⟩]).1 = "" :=
  (c2_subtitle_concatenation [⟨"out", [⟨0, 0⟩, ⟨1, 1⟩, ⟨1, 1⟩, ⟨0, 0⟩]⟩]).2
    (by decide)

/-- C3: the playerName field of a frame equals the text of the last fragment
(in list order) classified into the player zone, the empty string when none
matches: earlier matches are overwritten, never accumulated. -/
theorem c3_player_last_match (texts : List TextFragment) :
    (frame_result texts).2 =
      last_or "" ((texts.filter player_match).map TextFragment.description) ∧
    ((∀ t ∈ texts, player_match t = false) → (frame_result texts).2 = "") := by
  have hmain : (frame_result texts).2 =
      last_or "" ((texts.filter player_match).map TextFragment.description) := by
    rw [frame_result, foldl_classify_snd]
  refine ⟨hmain, fun hnone => ?_⟩
  rw [hmain, List.filter_eq_nil_iff.mpr (by intro t ht; simp [hnone t ht])]
  rfl

/-- Witness for C3: with two player-zone fragments in one frame, only the
second survives. -/
theorem c3_player_last_match_witness :
    (frame_result
      [⟨"P1", [⟨30, 470⟩, ⟨600, 490⟩, ⟨600, 490⟩, ⟨30, 490⟩]⟩,
       ⟨"P2", [⟨30, 470⟩, ⟨600, 490⟩, ⟨600, 490⟩, ⟨30, 490⟩]⟩]).2 = "P2" := by
  have h := (c3_player_last_match
    [⟨"P1", [⟨30, 470⟩, ⟨600, 490⟩, ⟨600, 490⟩, ⟨30, 490⟩]⟩,
     ⟨"P2", [⟨30, 470⟩, ⟨600, 490⟩, ⟨600, 490⟩, ⟨30, 490⟩]⟩]).1
  rw [h]
  decide

/-- C4: a 4-vertex fragment that passes both the subtitle and the player
containment tests is assigned to the subtitle field only (subtitle tested
first), and the player accumulator is left unchanged. -/
theorem c4_first_match_wins (acc : String × String) (t : TextFragment)
    (h4 : t.vertices.length = 4)
    (hs : in_area AREA_BOUND_SUBT t.vertices = true)
    (_hp : in_area AREA_BOUND_PLAYER t.vertices = true) :
    classify_fragment acc t = (acc.1 ++ t.description, acc.2) :=
  classify_fragment_subt acc t h4 hs

/-- Witness for C4 at a concrete fragment that geometrically satisfies both
zone tests (vertex 0 below in the player band, vertex 1 up in the subtitle
band — possible because the two tests constrain different vertices). -/
theorem c4_first_match_wins_witness :
    classify_fragment ("s", "p") ⟨"X", [⟨100, 462⟩, ⟨100, 300⟩, ⟨0, 0⟩, ⟨0, 0⟩]⟩ =
      ("s" ++ "X", "p") :=
  c4_first_match_wins ("s", "p") ⟨"X", [⟨100, 462⟩, ⟨100, 300⟩, ⟨0, 0⟩, ⟨0, 0⟩]⟩
    (by decide) (by decide) (by decide)

/-- C5: a fragment whose polygon has other than 4 vertices contributes to
neither output field: the loop body leaves the accumulator unchanged on it,
and removing all such fragments leaves every FrameResult unchanged. -/
theorem c5_malformed_fragments_ignored :
    (∀ (acc : String × String) (t : TextFragment), t.vertices.length ≠ 4 →
      classify_fragment acc t = acc) ∧
    (∀ texts : List TextFragment,
      frame_result (texts.filter (fun t => t.vertices.length == 4)) =
        frame_result texts) := by
  constructor
  · exact classify_fragment_skip
  · intro texts
    have key : ∀ (ts : List TextFragment) (acc : String × String),
        (ts.filter (fun t => t.vertices.length == 4)).foldl classify_fragment acc =
          ts.foldl classify_fragment acc := by
      intro ts
      induction ts with
      | nil => intro acc; rfl
      | cons t ts ih =>
        intro acc
        by_cases h4 : t.vertices.length = 4
        · rw [List.filter_cons_of_pos (by simp [h4]), List.foldl_cons,
            List.foldl_cons]
          exact ih _
        · rw [List.filter_cons_of_neg (by simp [h4]), List.foldl_cons,
            classify_fragment_skip acc t h4]
          exact ih acc
    exact key texts ("", "")

/-- Witness for C5: a 3-vertex fragment leaves the accumulator untouched. -/
theorem c5_malformed_fragments_ignored_witness :
    classify_fragment ("s", "p") ⟨"X", [⟨100, 150⟩, ⟨650, 390⟩, ⟨650, 390⟩]⟩ =
      ("s", "p") :=
  c5_malformed_fragments_ignored.1 ("s", "p")
    ⟨"X", [⟨100, 150⟩, ⟨650, 390⟩, ⟨650, 390⟩]⟩ (by decide)

/-- C6: for every list of per-frame responses, the result list has the same
length and its i-th entry is the frame result of the i-th response, in the
original frame order. -/
theorem c6_resultset_index_aligned (responses : List (List TextFragment)) :
    (retrieve_text responses).length = responses.length ∧
    (∀ i : Nat, i < responses.length →
      (retrieve_text responses).getD i ("", "") =
        frame_result (responses.getD i [])) := by
  rw [retrieve_text_eq_map]
  refine ⟨by simp, fun i hi => ?_⟩
  simp [List.getD, List.getElem?_map, List.getElem?_eq_getElem hi]

/-- Witness for C6 on a concrete 2-frame response list. -/
theorem c6_resultset_index_aligned_witness :
    (retrieve_text [[], [⟨"P", [⟨30, 470⟩, ⟨600, 490⟩, ⟨600, 490⟩, ⟨30, 490⟩]⟩]]).getD
        1 ("", "") =
      frame_result
        ([[], [⟨"P", [⟨30, 470⟩, ⟨600, 490⟩, ⟨600, 490⟩, ⟨30, 490⟩]⟩]].getD 1 []) :=
  (c6_resultset_index_aligned
    [[], [⟨"P", [⟨30, 470⟩, ⟨600, 490⟩, ⟨600, 490⟩, ⟨30, 490⟩]⟩]]).2 1 (by decide)

/-- C7: on the 2-frame input whose first frame has the single fragment
「こんにちは」 with polygon (100,150),(650,200),(650,220),(100,220) and whose
second frame has the single fragment "Player1" with polygon
(30,470),(600,470),(600,490),(30,490), the zones are the fixed constants,
classification yields subtitle=こんにちは for frame 0 and playerName=Player1
for frame 1, and the serialized output is exactly the JSON object
(result: [(subtitle こんにちは, playerName empty), (subtitle empty,
playerName Player1)]), rendered in the programs pretty-printed form. -/
theorem c7_end_to_end_example :
    AREA_BOUND_SUBT = ((95, 143), (673, 393)) ∧
    AREA_BOUND_PLAYER = ((21, 461), (627, 496)) ∧
    retrieve_text
        [[⟨"こんにちは", [⟨100, 150⟩, ⟨650, 200⟩, ⟨650, 220⟩, ⟨100, 220⟩]⟩],
         [⟨"Player1", [⟨30, 470⟩, ⟨600, 470⟩, ⟨600, 490⟩, ⟨30, 490⟩]⟩]] =
      [("こんにちは", ""), ("", "Player1")] ∧
    result_json [("こんにちは", ""), ("", "Player1")] =
      "\x7b\n    \"result\": [\n        \x7b\n            \"subtitle\": \"こんにちは\",\n            \"playerName\": \"\"\n        \x7d,\n        \x7b\n            \"subtitle\": \"\",\n            \"playerName\": \"Player1\"\n        \x7d\n    ]\n\x7d" :=
  ⟨rfl, rfl, by decide, by decide⟩

/-- C8: serializing any ResultSet (any finite list of string pairs, non-ASCII
characters included) and parsing the output back recovers every subtitle and
playerName string exactly, and every non-ASCII character (code point 128 and
above) is emitted unescaped, as itself. -/
theorem c8_serialization_roundtrip :
    (∀ rs : List (String × String), parse_output (result_json rs) = some rs) ∧
    (∀ c : Char, 128 ≤ c.toNat → escape_char c = [c]) := by
  refine ⟨parse_output_round, fun c hc => ?_⟩
  have h1 : c ≠ '\\' := by intro h; subst h; exact absurd hc (by decide)
  have h2 : c ≠ '"' := by intro h; subst h; exact absurd hc (by decide)
  have h3 : c ≠ '\x08' := by intro h; subst h; exact absurd hc (by decide)
  have h4 : c ≠ '\t' := by intro h; subst h; exact absurd hc (by decide)
  have h5 : c ≠ '\n' := by intro h; subst h; exact absurd hc (by decide)
  have h6 : c ≠ '\x0c' := by intro h; subst h; exact absurd hc (by decide)
  have h7 : c ≠ '\r' := by intro h; subst h; exact absurd hc (by decide)
  have h8 : ¬ c.toNat < 32 := by omega
  simp [escape_char, h1, h2, h3, h4, h5, h6, h7, h8]

/-- Witness for C8: the round trip at a concrete Japanese-text ResultSet, and
the unescaped emission of a concrete non-ASCII character. -/
theorem c8_serialization_roundtrip_witness :
    parse_output (result_json [("こんにちは", "Player1")]) =
      some [("こんにちは", "Player1")] ∧
    escape_char 'あ' = ['あ'] :=
  ⟨c8_serialization_roundtrip.1 [("こんにちは", "Player1")],
   c8_serialization_roundtrip.2 'あ' (by decide)⟩

/-- C9: the credential resolution errors out — printing the usage message and
exiting with code 1 — exactly when no credentials path was given on the
command line and the glob of the conventional credentials directory found no
JSON file; every other input resolves to a path, and code 1 with that message
is the only explicit exit. -/
theorem c9_usage_error_only_exit (cred_arg : Option String)
    (glob_cred : List String) (e : Nat × String) :
    resolve_cred cred_arg glob_cred = Except.error e ↔
      (cred_arg = none ∧ glob_cred = [] ∧ e = (1, usage_message)) := by
  constructor
  · intro h
    cases cred_arg with
    | some p => simp [resolve_cred] at h
    | none =>
      cases glob_cred with
      | nil =>
        simp only [resolve_cred, Except.error.injEq] at h
        exact ⟨rfl, rfl, h.symm⟩
      | cons p ps => simp [resolve_cred] at h
  · rintro ⟨h1, h2, h3⟩
    subst h1; subst h2; subst h3
    rfl

/-- Witness for C9: with no command-line path and an empty glob, resolution
yields exit code 1 with the usage message. -/
theorem c9_usage_error_only_exit_witness :
    resolve_cred none [] = Except.error (1, usage_message) :=
  (c9_usage_error_only_exit none [] (1, usage_message)).mpr ⟨rfl, rfl, rfl⟩

/-- C10: the per-frame classification is total: the 4-vertex check precedes
the accesses to vertices 0 and 1, so the error-aware embedding (in which an
out-of-bounds vertex access is an error) never errors and agrees with the
total function, for every fragment list including fragments with fewer than
2 vertices. -/
theorem c10_classification_total (texts : List TextFragment) :
    frame_result_checked texts = some (frame_result texts) :=
  foldlM_checked texts ("", "")

end PurpleArchiveOcr
